import Mathlib

/-!
Verification development for the blrec HLS segment-rotation subsystem.

Shallow embedding of three source files:
  * `src/blrec/utils/ffprobe.py`          (probe invocation and stream normalization)
  * `src/blrec/hls/operators/segment_dumper.py` (the segment rotator)
  * `src/blrec/hls/operators/analyser.py` (the metadata analyser)

JSON-like values are modelled by `JVal`; Python dicts by ordered association
lists with unique keys (`dget`/`dset` mirror `d.get(k)` lookup and `d[k] = v`
assignment on such dicts).
-/

namespace Blrec

/-- A JSON-like value, as produced by `json.loads` on ffprobe output. -/
inductive JVal where
  | null
  | s (v : String)
  | n (v : Int)
  | obj (kvs : List (String × JVal))

mutual

/-- Python `==` on JSON-like values (used only by the diagnostic
parameter-mismatch comparisons of `_must_split_file`). -/
def JVal.jeq : JVal → JVal → Bool
  | .null, .null => true
  | .s a, .s b => a == b
  | .n a, .n b => a == b
  | .obj a, .obj b => JVal.jeqL a b
  | _, _ => false

/-- Python `==` on dicts, keyed entry by entry. -/
def JVal.jeqL : List (String × JVal) → List (String × JVal) → Bool
  | [], [] => true
  | (k1, v1) :: r1, (k2, v2) :: r2 => k1 == k2 && JVal.jeq v1 v2 && JVal.jeqL r1 r2
  | _, _ => false

end

/-- Python `==` on optional JSON values (`None == None` is `True`). -/
def oeq : Option JVal → Option JVal → Bool
  | none, none => true
  | some a, some b => a.jeq b
  | _, _ => false

/-- Dict lookup `d.get(k)` on an ordered association list. -/
def dget : List (String × JVal) → String → Option JVal
  | [], _ => none
  | (k', v) :: rest, k => if k' = k then some v else dget rest k

/-- Dict assignment `d[k] = v` on an ordered association list with unique
keys: replace in place, or append at the end when the key is new. -/
def dset : List (String × JVal) → String → JVal → List (String × JVal)
  | [], k, v => [(k, v)]
  | (k', v') :: rest, k, v =>
      if k' = k then (k, v) :: rest else (k', v') :: dset rest k v

/-- Python truthiness of a `JVal` (empty string, zero, empty dict and null
are falsy). -/
def jTruthy : JVal → Bool
  | .null => false
  | .s v => v != ""
  | .n v => v != 0
  | .obj kvs => !kvs.isEmpty

/-- A stream descriptor: one entry of the ffprobe `streams` list. -/
abbrev Strm := List (String × JVal)

/-- The parsed ffprobe output consumed by `normalize_streams`: its `streams`
list and the `format.tags` dict (the only parts of `format` that are read). -/
structure Profile where
  streams : List Strm
  format_tags : List (String × JVal)

/-- `s.get('codec_type') == t`: true exactly when the `codec_type` entry is
the string `t`. -/
def codecTypeIs (t : String) (s : Strm) : Bool :=
  match dget s "codec_type" with
  | some (JVal.s u) => u == t
  | _ => false

/-- The placeholder video stream appended by `normalize_streams` when no
video stream is present (ffprobe.py lines 151-178). -/
def videoPlaceholder : Strm :=
  [ ("codec_type", .s "video"), ("codec_name", .s "none"),
    ("width", .n 0), ("height", .n 0), ("index", .n (-1)),
    ("codec_long_name", .s ""), ("codec_tag_string", .s ""), ("codec_tag", .s ""),
    ("coded_width", .n 0), ("coded_height", .n 0), ("closed_captions", .n 0),
    ("film_grain", .n 0), ("has_b_frames", .n 0), ("level", .n 0), ("refs", .n 0),
    ("is_avc", .s ""), ("nal_length_size", .s ""), ("id", .s ""),
    ("r_frame_rate", .s ""), ("avg_frame_rate", .s ""), ("time_base", .s ""),
    ("duration_ts", .n 0), ("duration", .s ""), ("extradata_size", .n 0),
    ("disposition", .obj []), ("tags", .obj []) ]

/-- The placeholder audio stream appended by `normalize_streams` when no
audio stream is present (ffprobe.py lines 180-202). -/
def audioPlaceholder : Strm :=
  [ ("codec_type", .s "audio"), ("codec_name", .s "none"),
    ("sample_fmt", .s ""), ("sample_rate", .s "0"), ("channels", .n 0),
    ("channel_layout", .s ""), ("bits_per_sample", .n 0), ("index", .n (-1)),
    ("codec_long_name", .s ""), ("codec_tag_string", .s ""), ("codec_tag", .s ""),
    ("id", .s ""), ("r_frame_rate", .s ""), ("avg_frame_rate", .s ""),
    ("time_base", .s ""), ("duration_ts", .n 0), ("duration", .s ""),
    ("bit_rate", .s ""), ("extradata_size", .n 0),
    ("disposition", .obj []), ("tags", .obj []) ]

/-- ffprobe.py lines 143-148: copy the container-level `encoder` tag into the
first video stream's tags, creating the `tags` dict if missing and leaving an
existing `encoder` entry untouched. -/
def patchEncoder (e : JVal) (s : Strm) : Strm :=
  let s := if (dget s "tags").isNone then dset s "tags" (JVal.obj []) else s
  match dget s "tags" with
  | some (JVal.obj kvs) =>
      if (dget kvs "encoder").isSome then s
      else dset s "tags" (JVal.obj (dset kvs "encoder" e))
  | _ => s

/-- ffprobe.py lines 205-211: the alternating merge loop
`for i in range(max_len): append video[i] if in range; append audio[i] if in range`
(once one list is exhausted the loop copies the rest of the other). -/
def interleave : List Strm → List Strm → List Strm
  | [], as_ => as_
  | v :: vs, [] => v :: interleave vs []
  | v :: vs, a :: as_ => v :: a :: interleave vs as_

/-- `normalize_streams` (ffprobe.py lines 136-214): split the streams by
codec type, patch the encoder tag into the first video stream, synthesize a
placeholder for an entirely missing kind, and interleave video/audio. -/
def normalize_streams (profile : Profile) : Profile :=
  let streams := profile.streams
  let video_streams := streams.filter (codecTypeIs "video")
  let audio_streams := streams.filter (codecTypeIs "audio")
  -- `if video_streams and encoder:` patch the first video stream
  let video_streams :=
    match video_streams, dget profile.format_tags "encoder" with
    | v :: vs, some e => if jTruthy e then patchEncoder e v :: vs else v :: vs
    | vs, _ => vs
  let video_streams := if video_streams.isEmpty then [videoPlaceholder] else video_streams
  let audio_streams := if audio_streams.isEmpty then [audioPlaceholder] else audio_streams
  { profile with streams := interleave video_streams audio_streams }

/-! ## The `ffprobe` call and its subprocess lifecycle (ffprobe.py lines 90-111)

The external process is environmental: `ProbeEnv` says whether `Popen`
succeeds and what `communicate` plus `json.loads` produce.  `PState` tracks
the observable lifecycle of the spawned process handle. -/

/-- Lifecycle of the subprocess handle spawned by one `ffprobe` call. -/
structure PState where
  spawned : Bool
  alive : Bool
  killed : Bool
  reaped : Bool

/-- Outcome of `process.communicate(data, timeout=10)` followed by
`json.loads(stdout)` for one call, as determined by the environment. -/
inductive CommOut where
  | raised            -- `communicate` raised (timeout or execution failure)
  | badJson           -- `communicate` returned but `json.loads` raised
  | nonDict (v : JVal) -- JSON parsed but is not an object: `normalize_streams` raises
  | parsed (p : Profile)

/-- Environment of one `ffprobe` call. -/
structure ProbeEnv where
  spawnOk : Bool
  comm : CommOut

/-- `Popen(args, ...)`: a live process handle. -/
def pspawn : PState := ⟨true, true, false, false⟩

/-- `communicate` returning normally: the process has terminated and been
waited on internally. -/
def pcommDone (st : PState) : PState := { st with alive := false, reaped := true }

/-- `process.kill()`. -/
def pkill (st : PState) : PState := { st with alive := false, killed := true }

/-- `process.wait()` (also performed by `Popen.__exit__` when the
`with` block is left). -/
def pwait (st : PState) : PState := { st with alive := false, reaped := true }

/-- `ffprobe(data)` (ffprobe.py lines 90-111): spawn the process inside a
`with` block, feed it the payload, parse its output and normalize it.  On an
exception inside the `try` the handler kills and waits the process before
re-raising; every path out of the `with` block runs `Popen.__exit__`, which
waits on the process. -/
def ffprobeRun (env : ProbeEnv) : Except Unit Profile × PState :=
  if env.spawnOk then
    let st := pspawn
    match env.comm with
    | .raised =>
        -- except: process.kill(); process.wait(); raise, then __exit__ waits
        (.error (), pwait (pwait (pkill st)))
    | .badJson =>
        -- communicate returned, json.loads raised: kill(); wait(); raise; __exit__
        (.error (), pwait (pwait (pkill (pcommDone st))))
    | .nonDict _ =>
        -- failure in the else-branch, outside the except: only __exit__ runs
        (.error (), pwait (pcommDone st))
    | .parsed p =>
        (.ok (normalize_streams p), pwait (pcommDone st))
  else
    -- Popen itself raised: no process was ever created
    (.error (), ⟨false, false, false, false⟩)

/-! ## The segment rotator (segment_dumper.py)

Items, the dumper's mutable state, the file system world and the observable
event trace of one session. -/

/-- An `InitSectionData` or `SegmentData` item.
Modelled from the spec: the item type itself lives in `segment_fetcher.py`,
which is not part of the sources; per the spec both variants carry a binary
payload, a mutable byte-offset field and (through the chunk descriptor) the
boolean forced-split flag `segment.custom_parser_values.get('split', False)`.
`isInit` tags the `InitSectionData` variant. -/
structure Item where
  isInit : Bool
  payload : List Nat
  split : Bool
  offset : Nat
deriving DecidableEq, Repr

/-- An open-file handle held in `self._file`: the index of the file it
writes to, and whether `close()` has been called on it. -/
structure Handle where
  idx : Nat
  closed : Bool
deriving DecidableEq, Repr

/-- The rotator's own mutable state: `self._path`, `self._file`,
`self._filesize` (segment_dumper.py lines 26-29). -/
structure DState where
  path : String
  file : Option Handle
  filesize : Nat
deriving DecidableEq, Repr

/-- `SegmentDumper._reset`: path empty, no file, size zero. -/
def reset_state : DState := ⟨"", none, 0⟩

/-- The file system: contents of every file created this session, in
creation order, plus a counter indexing write attempts for the environment's
write oracle. -/
structure World where
  files : List (List Nat)
  writeCount : Nat
deriving DecidableEq, Repr

/-- Environment of one rotator session: the path provider (keyed by how many
files were opened before the call), the raw probe outcome for each payload
(`Popen` + `communicate` + `json.loads`), and which write attempts succeed. -/
structure Env where
  provider : Nat → String × Int
  rawProbe : List Nat → Except Unit Profile
  writeOk : Nat → Bool

/-- `ffprobe` as seen by the rotator: raw probe then `normalize_streams`
(ffprobe.py lines 100-111). -/
def ffprobeE (env : Env) (payload : List Nat) : Except Unit Profile :=
  match env.rawProbe payload with
  | .error e => .error e
  | .ok p => .ok (normalize_streams p)

/-- One observable event of a session: the `file_opened` / `file_closed`
subjects, an item forwarded downstream (annotated with the index of the file
it was written to), a logged warning, and the downstream terminal signals. -/
inductive Ev where
  | opened (path : String) (ts : Int)
  | closed (path : String)
  | next (item : Item) (fileIdx : Nat)
  | warn (msg : String)
  | error
  | completed
deriving DecidableEq, Repr

/-- Scan the reversed character list of a path for the final dot-suffix of
its last component: chars before the dot (still reversed), or `none` when
the last component has no suffix (no dot, or only a leading dot). -/
def dropSuffixRev : List Char → Option (List Char)
  | [] => none
  | '/' :: _ => none
  | '.' :: rest =>
      if rest.isEmpty || rest.head? = some '/' then none else some rest
  | _ :: rest => dropSuffixRev rest

/-- `str(PurePath(path).with_suffix('.m4s'))`: replace (or append) the final
component's suffix with `.m4s` (segment_dumper.py line 54). -/
def with_suffix_m4s (p : String) : String :=
  let stem :=
    match dropSuffixRev p.toList.reverse with
    | some r => r.reverse
    | none => p.toList
  String.mk (stem ++ ".m4s".toList)

/-- `SegmentDumper._open_file` (lines 52-57): ask the path provider, create
the file, and fire `file_opened`.  Creating a file appends a fresh empty
entry to the world (the provider supplies a fresh name for each file). -/
def open_file (env : Env) (w : World) (s : DState) : World × DState × Ev :=
  let pt := env.provider w.files.length
  let path := with_suffix_m4s pt.1
  ({ w with files := w.files ++ [[]] },
   { s with path := path, file := some ⟨w.files.length, false⟩ },
   Ev.opened path pt.2)

/-- `SegmentDumper._close_file` (lines 59-63): if a file is open and not yet
closed, close it and fire `file_closed`. -/
def close_file (s : DState) : DState × List Ev :=
  match s.file with
  | some h =>
      if h.closed then (s, [])
      else ({ s with file := some ⟨h.idx, true⟩ }, [Ev.closed s.path])
  | none => (s, [])

/-- `SegmentDumper._write_data` (lines 65-70): `tell()` then `write()`; the
`assert self._file is not None` failure, a write on a closed handle and an
I/O failure of the write all raise. Returns the new world with `(offset, size)`. -/
def write_data (env : Env) (w : World) (s : DState) (item : Item) :
    Except Unit (World × Nat × Nat) :=
  match s.file with
  | none => .error ()
  | some h =>
      if h.closed then .error ()
      else if env.writeOk w.writeCount then
        let content := w.files.getD h.idx []
        .ok ({ w with files := w.files.set h.idx (content ++ item.payload),
                      writeCount := w.writeCount + 1 },
             content.length, item.payload.length)
      else .error ()

/-- Index of the file the open handle writes to (0 when no file is open;
only used to annotate forwarded items in the trace). -/
def curIdx (s : DState) : Nat :=
  match s.file with
  | some h => h.idx
  | none => 0

/-- `SegmentDumper._is_redundant` (lines 75-81). -/
def is_redundant (prev : Option Item) (curr : Item) : Bool :=
  match prev with
  | none => false
  | some p => curr.payload == p.payload

/-- `SegmentDumper._need_split_file` (lines 127-128):
`item.segment.custom_parser_values.get('split', False)`. -/
def need_split_file (item : Item) : Bool := item.split

/-- `next((s for s in streams if s.get('codec_type') == t), None)`. -/
def nextOfType (t : String) (streams : List Strm) : Option Strm :=
  streams.find? (codecTypeIs t)

/-- Dict subscription `d[k]`: raises `KeyError` when the key is missing. -/
def subscr (d : Strm) (k : String) : Except Unit JVal :=
  match dget d k with
  | some v => .ok v
  | none => .error ()

/-- Subscription through an `Optional` value: `None[k]` raises. -/
def subscrN (d : Option Strm) (k : String) : Except Unit JVal :=
  match d with
  | some d => subscr d k
  | none => .error ()

/-- The short-circuiting audio comparison of `_must_split_file`
(lines 106-111): true when some compared parameter differs. -/
def audioParamsChanged (pa ca : Strm) : Except Unit Bool := do
  if !(← subscr pa "codec_name").jeq (← subscr ca "codec_name") then return true
  if !(← subscr pa "channels").jeq (← subscr ca "channels") then return true
  if !(← subscr pa "sample_rate").jeq (← subscr ca "sample_rate") then return true
  return !oeq (dget pa "bit_rate") (dget ca "bit_rate")

/-- The short-circuiting video comparison of `_must_split_file`
(lines 116-122): true when some compared parameter differs. -/
def videoParamsChanged (pv cv : Option Strm) : Except Unit Bool := do
  if !(← subscrN pv "codec_name").jeq (← subscrN cv "codec_name") then return true
  if !(← subscrN pv "width").jeq (← subscrN cv "width") then return true
  if !(← subscrN pv "height").jeq (← subscrN cv "height") then return true
  if !(← subscrN pv "coded_width").jeq (← subscrN cv "coded_width") then return true
  return !(← subscrN pv "coded_height").jeq (← subscrN cv "coded_height")

/-- `SegmentDumper._must_split_file` (lines 83-125).  Returns the decision
together with the warnings logged; `.error` means an exception escaped (a
probe failure, or a missing key in a compared stream).  The first branch
fires when there is no previous retained item or its payload is empty
(`InitSectionData` truthiness is its payload length). -/
def must_split_file (env : Env) (prev : Option Item) (curr : Item) :
    Except Unit (Bool × List String) := do
  match prev with
  | none =>
      let _ ← ffprobeE env curr.payload
      return (true, [])
  | some p =>
      if p.payload.isEmpty then do
        let _ ← ffprobeE env curr.payload
        return (true, [])
      else do
        let prevProfile ← ffprobeE env p.payload
        let currProfile ← ffprobeE env curr.payload
        let prevVideo := nextOfType "video" prevProfile.streams
        let currVideo := nextOfType "video" currProfile.streams
        let prevAudio := nextOfType "audio" prevProfile.streams
        let currAudio := nextOfType "audio" currProfile.streams
        let warns1 ←
          match prevAudio, currAudio with
          | some pa, some ca => do
              let changed ← audioParamsChanged pa ca
              pure (if changed then ["Audio parameters changed"] else [])
          | _, _ => pure ([] : List String)
        let vchanged ← videoParamsChanged prevVideo currVideo
        let warns2 := if vchanged then ["Video parameters changed"] else []
        return (true, warns1 ++ warns2)

/-- Result of one `on_next` call: `ok` continues the session, `errored`
means `observer.on_error` was called (terminal), `raised` means an exception
escaped `on_next` itself without being handled by this stage. -/
inductive StepRes where
  | ok (w : World) (s : DState) (li : Option Item) (evs : List Ev)
  | errored (w : World) (s : DState) (li : Option Item) (evs : List Ev)
  | raised (w : World) (s : DState) (li : Option Item) (evs : List Ev)

/-- The final write-and-forward of the `try` block (lines 166-168), with the
`except` handler (lines 169-173): close the file, reset and emit the error
downstream when the write raises. -/
def writeForward (env : Env) (w : World) (s : DState) (li : Option Item)
    (item : Item) (evs : List Ev) : StepRes :=
  match write_data env w s item with
  | .error _ => .errored w reset_state li (evs ++ (close_file s).2 ++ [Ev.error])
  | .ok (w', offset, size) =>
      .ok w' { s with filesize := s.filesize + size } li
        (evs ++ [Ev.next { item with offset := offset } (curIdx s)])

/-- Lines 154-157 of `on_next`: the rotation
`self._close_file(); self._reset(); self._open_file()`, keeping the events
accumulated so far. -/
def rotated (env : Env) (w : World) (s : DState) (evs0 : List Ev) :
    World × DState × List Ev :=
  let t := open_file env w reset_state
  (t.1, t.2.1, evs0 ++ (close_file s).2 ++ [t.2.2])

/-- Lines 151-173 of `on_next`: the forced-split check, the rotation
(close the current file, reset, open a fresh one), and the `try` block
writing the retained init section (when rotation was triggered by a media
segment) followed by the item itself. -/
def afterSplit (env : Env) (w : World) (s : DState) (li : Option Item)
    (item : Item) (split0 : Bool) (evs0 : List Ev) : StepRes :=
  let split_file := if split0 then split0 else need_split_file item
  let wse := if split_file then rotated env w s evs0 else (w, s, evs0)
  let w1 := wse.1
  let s1 := wse.2.1
  let evs := wse.2.2
  if split_file && !item.isInit then
    match li with
    | none =>
        -- `assert last_init_item is not None` fails: AssertionError
        .errored w1 reset_state li (evs ++ (close_file s1).2 ++ [Ev.error])
    | some lastInit =>
        match write_data env w1 s1 lastInit with
        | .error _ => .errored w1 reset_state li (evs ++ (close_file s1).2 ++ [Ev.error])
        | .ok (w2, offset, size) =>
            writeForward env w2 { s1 with filesize := s1.filesize + size } li item
              (evs ++ [Ev.next { lastInit with offset := offset } (curIdx s1)])
  else
    writeForward env w1 s1 li item evs

/-- `on_next` (segment_dumper.py lines 141-173). -/
def onNext (env : Env) (w : World) (s : DState) (li : Option Item)
    (item : Item) : StepRes :=
  if item.isInit then
    if is_redundant li item then
      .ok w s li []
    else
      match must_split_file env li item with
      | .error _ => .raised w s li []
      | .ok (split0, warns) =>
          afterSplit env w s (some item) item split0 (warns.map Ev.warn)
  else
    afterSplit env w s li item false []

/-- `on_completed` (lines 175-178): close, reset, forward completion. -/
def on_completed_h (s : DState) : DState × List Ev :=
  (reset_state, (close_file s).2 ++ [Ev.completed])

/-- `on_error` (lines 180-183): close, reset, forward the error. -/
def on_error_h (s : DState) : DState × List Ev :=
  (reset_state, (close_file s).2 ++ [Ev.error])

/-- `dispose` (lines 185-191): close and reset; nothing is forwarded. -/
def dispose_h (s : DState) : DState × List Ev :=
  (reset_state, (close_file s).2)

/-- How one session ended. -/
inductive Term where
  | completed
  | errored
  | raised
deriving DecidableEq, Repr

/-- The observable outcome of a session: final world, final rotator state,
retained init item, full event trace, and how the session ended. -/
structure RunRes where
  w : World
  s : DState
  li : Option Item
  evs : List Ev
  term : Term

/-- Feed a list of items through `on_next`, then (if no terminal occurred)
deliver upstream completion.  After `observer.on_error` the subscription is
disposed, so remaining items are not processed; an exception escaping
`on_next` likewise stops the session without reaching this stage again. -/
def runItems (env : Env) : World → DState → Option Item → List Ev → List Item → RunRes
  | w, s, li, evs, [] =>
      let (s', e) := on_completed_h s
      ⟨w, s', li, evs ++ e, .completed⟩
  | w, s, li, evs, it :: rest =>
      match onNext env w s li it with
      | .ok w' s' li' e => runItems env w' s' li' (evs ++ e) rest
      | .errored w' s' li' e => ⟨w', s', li', evs ++ e, .errored⟩
      | .raised w' s' li' e => ⟨w', s', li', evs ++ e, .raised⟩

/-- One whole session on a fresh rotator: `subscribe` starts with
`last_init_item = None` and the state left by `_reset`. -/
def run (env : Env) (items : List Item) : RunRes :=
  runItems env ⟨[], 0⟩ reset_state none [] items

/-! ## The metadata analyser (analyser.py) -/

/-- The analyser's cached state.  `Analyser._reset` only ever assigns the
two video fields; the two audio fields are attributes first created by
`_on_profile_updated` (modelled as `none` while still unset, which is also
the value `.get(..., None)` stores when a profile has no genuine entry). -/
structure AnalyserState where
  video_width : JVal
  video_height : JVal
  audio_sample_rate : Option JVal
  audio_channels : Option JVal

/-- The analyser state as `__init__` leaves it: `_reset` has zeroed the
video fields and no profile update has happened yet. -/
def initAnalyserState : AnalyserState :=
  ⟨JVal.n 0, JVal.n 0, none, none⟩

/-- `Analyser._reset` (analyser.py lines 40-42): assigns
`self._video_width = 0` and `self._video_height = 0` — nothing else. -/
def analyserReset (a : AnalyserState) : AnalyserState :=
  { a with video_width := JVal.n 0, video_height := JVal.n 0 }

/-- `Analyser._on_profile_updated` (analyser.py lines 44-63). -/
def onProfileUpdated (profile : Profile) (a : AnalyserState) : AnalyserState :=
  let streams := profile.streams
  let video_profiles := streams.filter (codecTypeIs "video")
  let audio_profiles := streams.filter (codecTypeIs "audio")
  let a :=
    match video_profiles with
    | vp :: _ =>
        { a with video_width := (dget vp "width").getD (JVal.n 0),
                 video_height := (dget vp "height").getD (JVal.n 0) }
    | [] => { a with video_width := JVal.n 0, video_height := JVal.n 0 }
  match audio_profiles with
  | ap :: _ =>
      { a with audio_sample_rate := dget ap "sample_rate",
               audio_channels := dget ap "channels" }
  | [] => { a with audio_sample_rate := none, audio_channels := none }

/-! ## Trace observations used to state the offset/size properties -/

/-- The items forwarded downstream that were written into file `f`, in
order. -/
def writesTo (f : Nat) (evs : List Ev) : List Item :=
  evs.filterMap fun e =>
    match e with
    | .next it g => if g = f then some it else none
    | _ => none

/-- Concatenation of the payloads of a list of items. -/
def concatPayloads (its : List Item) : List Nat :=
  its.foldr (fun it acc => it.payload ++ acc) []

/-- Each item in the list carries offset `base` plus the total length of the
payloads before it. -/
def offsetsOkFrom (base : Nat) : List Item → Bool
  | [] => true
  | it :: rest => it.offset == base && offsetsOkFrom (base + it.payload.length) rest

/-- Each created file holds exactly the concatenation of the payloads
forwarded into it, each forwarded item's recorded offset is the number of
bytes written to that file before it, and the trace never mentions a file
that does not exist. -/
def FileInv (w : World) (evs : List Ev) : Prop :=
  (∀ f, f < w.files.length →
      w.files.getD f [] = concatPayloads (writesTo f evs) ∧
      offsetsOkFrom 0 (writesTo f evs) = true) ∧
  (∀ f, w.files.length ≤ f → writesTo f evs = [])

/-- The cumulative size accessor equals the bytes in the currently open
file (zero when none is open), and the open handle is sound. -/
def SizeInv (w : World) (s : DState) : Prop :=
  (∀ hd, s.file = some hd → hd.closed = false ∧ hd.idx < w.files.length ∧
      s.filesize = (w.files.getD hd.idx []).length) ∧
  (s.file = none → s.filesize = 0)

/-- Conjunction of the per-file and size invariants. -/
def Inv (w : World) (s : DState) (evs : List Ev) : Prop :=
  FileInv w evs ∧ SizeInv w s

/-- The final video-stream list built by `normalize_streams` (its first
three `let` steps, restated for the proofs; `normalize_streams_eq` below
proves the decomposition). -/
def videoListOf (p : Profile) : List Strm :=
  let video_streams := p.streams.filter (codecTypeIs "video")
  let video_streams :=
    match video_streams, dget p.format_tags "encoder" with
    | v :: vs, some e => if jTruthy e then patchEncoder e v :: vs else v :: vs
    | vs, _ => vs
  if video_streams.isEmpty then [videoPlaceholder] else video_streams

/-- The final audio-stream list built by `normalize_streams`. -/
def audioListOf (p : Profile) : List Strm :=
  let audio_streams := p.streams.filter (codecTypeIs "audio")
  if audio_streams.isEmpty then [audioPlaceholder] else audio_streams

/-- Whether an event is a `file_opened` notification. -/
def isOpenedEv : Ev → Bool
  | .opened _ _ => true
  | _ => false

/-- Whether an event is a `file_closed` notification. -/
def isClosedEv : Ev → Bool
  | .closed _ => true
  | _ => false

/-- Whether an event forwards an item downstream. -/
def isNextEv : Ev → Bool
  | .next _ _ => true
  | _ => false

/-- An event list containing no forwarded items. -/
def noWrites (e : List Ev) : Prop := ∀ f, writesTo f e = []

/-- The world component of a step result. -/
def StepRes.pw : StepRes → World
  | .ok w _ _ _ => w
  | .errored w _ _ _ => w
  | .raised w _ _ _ => w

/-- The rotator-state component of a step result. -/
def StepRes.ps : StepRes → DState
  | .ok _ s _ _ => s
  | .errored _ s _ _ => s
  | .raised _ s _ _ => s

/-- The event-list component of a step result. -/
def StepRes.pevs : StepRes → List Ev
  | .ok _ _ _ e => e
  | .errored _ _ _ e => e
  | .raised _ _ _ e => e

/-- A raw probe output with no streams at all (normalization synthesizes
both placeholders). -/
def emptyProfile : Profile := ⟨[], []⟩

/-- A raw probe output with a single audio stream. -/
def audioProfileEg : Profile :=
  ⟨[[("codec_type", .s "audio"), ("codec_name", .s "aac"),
     ("sample_rate", .s "44100"), ("channels", .n 2)]], []⟩

/-- A raw probe output with a single video stream and no audio. -/
def videoOnlyProfile : Profile :=
  ⟨[[("codec_type", .s "video"), ("codec_name", .s "h264")]], []⟩

/-- Session environment where every probe and every write succeeds. -/
def envAllOk : Env :=
  ⟨fun n => ("rec", Int.ofNat n), fun _ => .ok emptyProfile, fun _ => true⟩

/-- Session environment where probing the payload `[9]` raises. -/
def envProbeFail : Env :=
  ⟨fun n => ("rec", Int.ofNat n),
   fun pl => if pl = [9] then .error () else .ok emptyProfile, fun _ => true⟩

/-- Session environment where every write fails. -/
def envNoWrite : Env :=
  ⟨fun n => ("rec", Int.ofNat n), fun _ => .ok emptyProfile, fun _ => false⟩

/-- A concrete init section item. -/
def itemInitA : Item := ⟨true, [1, 2], false, 0⟩

/-- A concrete media segment item. -/
def itemSeg1 : Item := ⟨false, [3], false, 0⟩

/-- A concrete init section item whose payload makes the probe raise under
`envProbeFail`. -/
def itemInitB : Item := ⟨true, [9], false, 0⟩

/-- An analyser state with a populated audio cache. -/
def aStateEg : AnalyserState := ⟨.n 9, .n 9, some (.s "44100"), some (.n 2)⟩

/-- A rotator state with an open file. -/
def sStateEg : DState := ⟨"x", some ⟨0, false⟩, 5⟩

/-! ## Theorems -/

theorem bind_ok_inv {α β : Type} {x : Except Unit α} {f : α → Except Unit β} {b : β}
    (h : (x >>= f) = .ok b) : ∃ a, x = .ok a ∧ f a = .ok b := by
  cases x with
  | error e => simp [Bind.bind, Except.bind] at h
  | ok a => exact ⟨a, rfl, by simpa [Bind.bind, Except.bind] using h⟩

theorem dget_dset_ne (d : List (String × JVal)) (k k' : String) (v : JVal) (h : k' ≠ k) :
    dget (dset d k' v) k = dget d k := by
  induction d with
  | nil => simp [dset, dget, h]
  | cons hd tl ih =>
      obtain ⟨a, b⟩ := hd
      by_cases hak : a = k'
      · subst hak
        simp [dset, dget, h]
      · simp [dset, dget, hak, ih]

theorem codecType_patchEncoder (e : JVal) (s : Strm) :
    dget (patchEncoder e s) "codec_type" = dget s "codec_type" := by
  unfold patchEncoder
  have hne : "tags" ≠ "codec_type" := by decide
  split <;> dsimp only <;> split <;>
    first
    | simp [dget_dset_ne _ _ _ _ hne]
    | (split <;> simp [dget_dset_ne _ _ _ _ hne])

theorem video_not_audio {s : Strm} (h : codecTypeIs "video" s = true) :
    codecTypeIs "audio" s = false := by
  unfold codecTypeIs at *
  cases hd : dget s "codec_type" with
  | none => simp [hd] at h
  | some v =>
      cases v <;> simp [hd] at h ⊢
      simp [h]

theorem mem_interleave {s : Strm} :
    ∀ (vs as_ : List Strm), s ∈ interleave vs as_ → s ∈ vs ∨ s ∈ as_ := by
  intro vs as_ h
  induction vs, as_ using interleave.induct with
  | case1 as_ => exact Or.inr (by simpa [interleave] using h)
  | case2 v vs ih =>
      simp only [interleave, List.mem_cons] at h
      rcases h with rfl | h
      · exact Or.inl (by simp)
      · rcases ih h with h2 | h2
        · exact Or.inl (by simp [h2])
        · exact Or.inr h2
  | case3 v vs a as_ ih =>
      simp only [interleave, List.mem_cons] at h
      rcases h with rfl | rfl | h
      · exact Or.inl (by simp)
      · exact Or.inr (by simp)
      · rcases ih h with h2 | h2
        · exact Or.inl (by simp [h2])
        · exact Or.inr (by simp [h2])

theorem normalize_streams_eq (p : Profile) :
    normalize_streams p = { p with streams := interleave (videoListOf p) (audioListOf p) } := rfl

theorem videoListOf_video (p : Profile) :
    ∀ x ∈ videoListOf p, codecTypeIs "video" x = true := by
  intro x hx
  unfold videoListOf at hx
  dsimp only at hx
  split at hx
  · simp only [List.mem_singleton] at hx
    subst hx
    decide
  · split at hx
    · rename_i v vs e heq _
      split at hx <;> simp only [List.mem_cons] at hx <;> rcases hx with rfl | hx
      · have hv : codecTypeIs "video" v = true :=
          List.of_mem_filter (show v ∈ p.streams.filter (codecTypeIs "video") by simp [heq])
        show codecTypeIs "video" (patchEncoder e v) = true
        unfold codecTypeIs at hv ⊢
        rw [codecType_patchEncoder]
        exact hv
      · exact List.of_mem_filter (by simp [heq, List.mem_cons_of_mem, hx] :
          x ∈ p.streams.filter (codecTypeIs "video"))
      · have : x ∈ p.streams.filter (codecTypeIs "video") := by simp [heq]
        exact List.of_mem_filter this
      · exact List.of_mem_filter (by simp [heq, hx] :
          x ∈ p.streams.filter (codecTypeIs "video"))
    · rename_i heq
      exact List.of_mem_filter hx

theorem audioListOf_audio (p : Profile) :
    ∀ x ∈ audioListOf p, codecTypeIs "audio" x = true := by
  intro x hx
  unfold audioListOf at hx
  dsimp only at hx
  split at hx
  · simp only [List.mem_singleton] at hx
    subst hx
    decide
  · exact List.of_mem_filter hx

theorem videoListOf_cons (p : Profile) :
    ∃ v vs, videoListOf p = v :: vs := by
  have h : videoListOf p ≠ [] := by
    unfold videoListOf
    dsimp only
    split
    · simp
    · rename_i h
      simpa [List.isEmpty_iff] using h
  exact List.exists_cons_of_ne_nil h

theorem audioListOf_cons (p : Profile) :
    ∃ a as_, audioListOf p = a :: as_ := by
  have h : audioListOf p ≠ [] := by
    unfold audioListOf
    dsimp only
    split
    · simp
    · rename_i h
      simpa [List.isEmpty_iff] using h
  exact List.exists_cons_of_ne_nil h

theorem videoListOf_of_no_video (p : Profile)
    (h : p.streams.filter (codecTypeIs "video") = []) :
    videoListOf p = [videoPlaceholder] := by
  unfold videoListOf
  cases hd : dget p.format_tags "encoder" <;> simp [h, hd]

theorem audioListOf_of_no_audio (p : Profile)
    (h : p.streams.filter (codecTypeIs "audio") = []) :
    audioListOf p = [audioPlaceholder] := by
  unfold audioListOf
  simp [h]

/-- C6: the normalized stream list always holds a video descriptor at index
0 and an audio descriptor at index 1 (these are the first descriptors of
their kinds); when the raw probe output has no stream of a kind, the first
descriptor of that kind is the synthesized placeholder whose codec name is
"none". -/
theorem normalize_streams_first_video_audio (p : Profile) :
    (∃ v, ((normalize_streams p).streams)[0]? = some v ∧ codecTypeIs "video" v = true ∧
        (normalize_streams p).streams.find? (codecTypeIs "video") = some v) ∧
    (∃ a, ((normalize_streams p).streams)[1]? = some a ∧ codecTypeIs "audio" a = true ∧
        (normalize_streams p).streams.find? (codecTypeIs "audio") = some a) ∧
    (p.streams.filter (codecTypeIs "video") = [] →
        ∃ v, (normalize_streams p).streams.find? (codecTypeIs "video") = some v ∧
          dget v "codec_name" = some (JVal.s "none")) ∧
    (p.streams.filter (codecTypeIs "audio") = [] →
        ∃ a, (normalize_streams p).streams.find? (codecTypeIs "audio") = some a ∧
          dget a "codec_name" = some (JVal.s "none")) := by
  obtain ⟨v0, vtl, hV⟩ := videoListOf_cons p
  obtain ⟨a0, atl, hA⟩ := audioListOf_cons p
  have hst : (normalize_streams p).streams = v0 :: a0 :: interleave vtl atl := by
    rw [normalize_streams_eq]
    dsimp only
    rw [hV, hA]
    simp [interleave]
  have hv0 : codecTypeIs "video" v0 = true :=
    videoListOf_video p v0 (by rw [hV]; exact List.mem_cons_self _ _)
  have ha0 : codecTypeIs "audio" a0 = true :=
    audioListOf_audio p a0 (by rw [hA]; exact List.mem_cons_self _ _)
  have hvfind : (normalize_streams p).streams.find? (codecTypeIs "video") = some v0 := by
    rw [hst]
    exact List.find?_cons_of_pos _ hv0
  have hafind : (normalize_streams p).streams.find? (codecTypeIs "audio") = some a0 := by
    rw [hst, List.find?_cons_of_neg _ (by simp [video_not_audio hv0])]
    exact List.find?_cons_of_pos _ ha0
  refine ⟨⟨v0, by rw [hst]; rfl, hv0, hvfind⟩, ⟨a0, by rw [hst]; simp, ha0, hafind⟩, ?_, ?_⟩
  · intro hnv
    have h0 : v0 = videoPlaceholder := by
      have := videoListOf_of_no_video p hnv
      rw [hV] at this
      exact (List.cons.injEq _ _ _ _ ▸ this).1
    exact ⟨v0, hvfind, by rw [h0]; rfl⟩
  · intro hna
    have h0 : a0 = audioPlaceholder := by
      have := audioListOf_of_no_audio p hna
      rw [hA] at this
      exact (List.cons.injEq _ _ _ _ ▸ this).1
    exact ⟨a0, hafind, by rw [h0]; rfl⟩

/-- C10: every descriptor surviving normalization is video-kind or
audio-kind; descriptors of any other kind are discarded. -/
theorem normalize_streams_only_video_audio (p : Profile) :
    ∀ x ∈ (normalize_streams p).streams,
      codecTypeIs "video" x = true ∨ codecTypeIs "audio" x = true := by
  intro x hx
  rw [normalize_streams_eq] at hx
  dsimp only at hx
  rcases mem_interleave _ _ hx with h | h
  · exact Or.inl (videoListOf_video p x h)
  · exact Or.inr (audioListOf_audio p x h)

/-- C2: whenever `_must_split_file` returns (instead of raising), its
answer is `True`, whatever warnings the parameter comparisons produced. -/
theorem must_split_file_always_true :
    ∀ (env : Env) (prev : Option Item) (curr : Item) (b : Bool) (ws : List String),
      must_split_file env prev curr = .ok (b, ws) → b = true := by
  intro env prev curr b ws h
  unfold must_split_file at h
  cases prev with
  | none =>
      obtain ⟨a, -, h2⟩ := bind_ok_inv h
      simp [Pure.pure, Except.pure] at h2
      exact h2.1
  | some p =>
      by_cases hp : p.payload.isEmpty <;> simp only [hp, if_true, if_false] at h
      · obtain ⟨a, -, h2⟩ := bind_ok_inv h
        simp [Pure.pure, Except.pure] at h2
        exact h2.1
      · obtain ⟨a1, -, h⟩ := bind_ok_inv h
        obtain ⟨a2, -, h⟩ := bind_ok_inv h
        split at h <;>
        · repeat obtain ⟨_, -, h⟩ := bind_ok_inv h
          simp [Pure.pure, Except.pure] at h
          exact h.1

theorem writeForward_errored {env : Env} {w : World} {s : DState} {li : Option Item}
    {item : Item} {evs : List Ev} {w' : World} {s' : DState} {li' : Option Item} {e : List Ev}
    (h : writeForward env w s li item evs = .errored w' s' li' e) :
    w' = w ∧ s' = reset_state ∧ li' = li ∧ e = evs ++ (close_file s).2 ++ [Ev.error] := by
  unfold writeForward at h
  split at h
  · cases h
    exact ⟨rfl, rfl, rfl, rfl⟩
  · cases h

theorem rotated_close_snd (env : Env) (w : World) (s : DState) (evs0 : List Ev) :
    (close_file (rotated env w s evs0).2.1).2 = [Ev.closed (rotated env w s evs0).2.1.path] := rfl

theorem close_snd_cases (s : DState) :
    (close_file s).2 = [] ∨ (close_file s).2 = [Ev.closed s.path] := by
  unfold close_file
  cases s.file with
  | none => exact Or.inl rfl
  | some hd =>
      cases hc : hd.closed
      · exact Or.inr (by simp [hc])
      · exact Or.inl (by simp [hc])

theorem close_snd_open {s : DState} {hd : Handle}
    (h1 : s.file = some hd) (h2 : hd.closed = false) :
    (close_file s).2 = [Ev.closed s.path] := by
  unfold close_file
  rw [h1]
  simp [h2]

theorem noSplit_closed_cond {s : DState} {evs0 : List Ev}
    (hw : evs0.any isOpenedEv = false) :
    ((∃ hd, s.file = some hd ∧ hd.closed = false) ∨
        (evs0 ++ (close_file s).2 ++ [Ev.error]).any isOpenedEv = true) →
      (evs0 ++ (close_file s).2 ++ [Ev.error]).any isClosedEv = true := by
  intro hyp
  rcases hyp with ⟨hd2, h1, h2⟩ | h2
  · rw [close_snd_open h1 h2]
    simp [isClosedEv, List.any_append]
  · exfalso
    rcases close_snd_cases s with hcl | hcl <;>
      rw [hcl] at h2 <;>
      simp [List.any_append, hw, isOpenedEv] at h2

theorem afterSplit_errored {env : Env} {w : World} {s : DState} {li : Option Item}
    {item : Item} {split0 : Bool} {evs0 : List Ev}
    {w' : World} {s' : DState} {li' : Option Item} {e : List Ev}
    (hw : evs0.any isOpenedEv = false)
    (h : afterSplit env w s li item split0 evs0 = .errored w' s' li' e) :
    s' = reset_state ∧ e.getLast? = some Ev.error ∧
    (((∃ hd, s.file = some hd ∧ hd.closed = false) ∨ e.any isOpenedEv = true) →
      e.any isClosedEv = true) := by
  unfold afterSplit at h
  dsimp only at h
  by_cases hsf : (if split0 = true then split0 else need_split_file item) = true
  · rw [hsf] at h
    simp only [eq_self_iff_true, if_true, Bool.true_and] at h
    cases hii : item.isInit
    · rw [hii] at h
      simp only [Bool.not_false, eq_self_iff_true, if_true] at h
      cases li with
      | none =>
          dsimp only at h
          cases h
          refine ⟨rfl, List.getLast?_concat _, fun _ => ?_⟩
          rw [rotated_close_snd]
          simp [isClosedEv, List.any_append]
      | some lastInit =>
          dsimp only at h
          rcases hwd : write_data env (rotated env w s evs0).1
              (rotated env w s evs0).2.1 lastInit with err | ⟨w2, offset, size⟩
          · rw [hwd] at h
            cases h
            refine ⟨rfl, List.getLast?_concat _, fun _ => ?_⟩
            rw [rotated_close_snd]
            simp [isClosedEv, List.any_append]
          · rw [hwd] at h
            obtain ⟨-, hs, -, he⟩ := writeForward_errored h
            subst hs he
            refine ⟨rfl, List.getLast?_concat _, fun _ => ?_⟩
            have hcf : (close_file { (rotated env w s evs0).2.1 with
                filesize := (rotated env w s evs0).2.1.filesize + size }).2 =
                [Ev.closed (rotated env w s evs0).2.1.path] := rfl
            rw [hcf]
            simp [isClosedEv, List.any_append]
    · rw [hii] at h
      simp only [Bool.not_true, Bool.and_false] at h
      simp only [show (false = true) = False by simp, if_false] at h
      obtain ⟨-, hs, -, he⟩ := writeForward_errored h
      subst hs he
      refine ⟨rfl, List.getLast?_concat _, fun _ => ?_⟩
      rw [rotated_close_snd]
      simp [isClosedEv, List.any_append]
  · rw [Bool.not_eq_true] at hsf
    rw [hsf] at h
    simp only [show (false = true) = False by simp, if_false, Bool.false_and] at h
    obtain ⟨-, hs, -, he⟩ := writeForward_errored h
    subst hs he
    exact ⟨rfl, List.getLast?_concat _, noSplit_closed_cond hw⟩


theorem writeForward_not_raised {env : Env} {w : World} {s : DState} {li : Option Item}
    {item : Item} {evs : List Ev} {w' : World} {s' : DState} {li' : Option Item} {e : List Ev}
    (h : writeForward env w s li item evs = .raised w' s' li' e) : False := by
  unfold writeForward at h
  split at h <;> cases h

theorem afterSplit_not_raised {env : Env} {w : World} {s : DState} {li : Option Item}
    {item : Item} {split0 : Bool} {evs0 : List Ev}
    {w' : World} {s' : DState} {li' : Option Item} {e : List Ev}
    (h : afterSplit env w s li item split0 evs0 = .raised w' s' li' e) : False := by
  unfold afterSplit at h
  dsimp only at h
  by_cases hsf : (if split0 = true then split0 else need_split_file item) = true
  · rw [hsf] at h
    simp only [eq_self_iff_true, if_true, Bool.true_and] at h
    cases hii : item.isInit
    · rw [hii] at h
      simp only [Bool.not_false, eq_self_iff_true, if_true] at h
      cases li with
      | none =>
          dsimp only at h
          cases h
      | some lastInit =>
          dsimp only at h
          rcases hwd : write_data env (rotated env w s evs0).1
              (rotated env w s evs0).2.1 lastInit with err | ⟨w2, offset, size⟩
          · rw [hwd] at h
            cases h
          · rw [hwd] at h
            exact writeForward_not_raised h
    · rw [hii] at h
      simp only [Bool.not_true, Bool.and_false] at h
      simp only [show (false = true) = False by simp, if_false] at h
      exact writeForward_not_raised h
  · rw [Bool.not_eq_true] at hsf
    rw [hsf] at h
    simp only [show (false = true) = False by simp, if_false, Bool.false_and] at h
    exact writeForward_not_raised h

theorem warn_map_no_opened (ws : List String) :
    ((ws.map Ev.warn).any isOpenedEv) = false := by
  simp [List.any_map, Function.comp, isOpenedEv]

theorem onNext_errored {env : Env} {w : World} {s : DState} {li : Option Item}
    {item : Item} {w' : World} {s' : DState} {li' : Option Item} {e : List Ev}
    (h : onNext env w s li item = .errored w' s' li' e) :
    s' = reset_state ∧ e.getLast? = some Ev.error ∧
    (((∃ hd, s.file = some hd ∧ hd.closed = false) ∨ e.any isOpenedEv = true) →
      e.any isClosedEv = true) := by
  unfold onNext at h
  cases hii : item.isInit
  · rw [hii] at h
    simp only [show (false = true) = False by simp, if_false] at h
    exact afterSplit_errored (by simp) h
  · rw [hii] at h
    simp only [eq_self_iff_true, if_true] at h
    by_cases hr : is_redundant li item = true
    · rw [hr] at h
      simp only [eq_self_iff_true, if_true] at h
      cases h
    · rw [Bool.not_eq_true] at hr
      rw [hr] at h
      simp only [show (false = true) = False by simp, if_false] at h
      rcases hms : must_split_file env li item with err | ⟨split0, warns⟩ <;> rw [hms] at h
      · cases h
      · exact afterSplit_errored (warn_map_no_opened warns) h

theorem onNext_raised {env : Env} {w : World} {s : DState} {li : Option Item}
    {item : Item} {w' : World} {s' : DState} {li' : Option Item} {e : List Ev}
    (h : onNext env w s li item = .raised w' s' li' e) :
    w' = w ∧ s' = s ∧ li' = li ∧ e = [] := by
  unfold onNext at h
  cases hii : item.isInit
  · rw [hii] at h
    simp only [show (false = true) = False by simp, if_false] at h
    exact absurd h (fun hh => afterSplit_not_raised hh)
  · rw [hii] at h
    simp only [eq_self_iff_true, if_true] at h
    by_cases hr : is_redundant li item = true
    · rw [hr] at h
      simp only [eq_self_iff_true, if_true] at h
      cases h
    · rw [Bool.not_eq_true] at hr
      rw [hr] at h
      simp only [show (false = true) = False by simp, if_false] at h
      rcases hms : must_split_file env li item with err | ⟨split0, warns⟩ <;> rw [hms] at h
      · cases h
        exact ⟨rfl, rfl, rfl, rfl⟩
      · exact absurd h (fun hh => afterSplit_not_raised hh)


/-- C5: a write failure aborts the session atomically: the rotator state is
cleared (path empty, no open handle, size zero), the last event emitted
downstream is the terminal error, a `file_closed` notification is fired
whenever a file was open, and the remaining items of the session are never
processed. -/
theorem write_failure_aborts_session :
    ∀ (env : Env) (w : World) (s : DState) (li : Option Item) (item : Item)
      (w' : World) (s' : DState) (li' : Option Item) (e : List Ev),
      onNext env w s li item = .errored w' s' li' e →
      s' = reset_state ∧ e.getLast? = some Ev.error ∧
      (((∃ hd, s.file = some hd ∧ hd.closed = false) ∨ e.any isOpenedEv = true) →
        e.any isClosedEv = true) ∧
      (∀ (rest : List Item) (evs0 : List Ev),
        runItems env w s li evs0 (item :: rest) = ⟨w', s', li', evs0 ++ e, .errored⟩) := by
  intro env w s li item w' s' li' e h
  obtain ⟨h1, h2, h3⟩ := onNext_errored h
  exact ⟨h1, h2, h3, fun rest evs0 => by simp [runItems, h]⟩

/-- C8 amended: not every failure path closes the open file.  A write
failure does clear the state (no open handle remains), but a probe failure
raised inside `_must_split_file` escapes `on_next` outside the `try` block:
the rotator state is left exactly as it was — in particular an open file
stays open — no `file_closed` fires, and the session stops without a
downstream error. -/
theorem probe_failure_escapes_unhandled :
    ∀ (env : Env) (w : World) (s : DState) (li : Option Item) (item : Item)
      (w' : World) (s' : DState) (li' : Option Item) (e : List Ev),
      (onNext env w s li item = .raised w' s' li' e →
        w' = w ∧ s' = s ∧ li' = li ∧ e = [] ∧
        (∀ (rest : List Item) (evs0 : List Ev),
          runItems env w s li evs0 (item :: rest) = ⟨w, s, li, evs0, .raised⟩)) ∧
      (onNext env w s li item = .errored w' s' li' e → s' = reset_state ∧ s'.file = none) := by
  intro env w s li item w' s' li' e
  constructor
  · intro h
    obtain ⟨hw, hs, hli, he⟩ := onNext_raised h
    subst hw hs hli he
    exact ⟨rfl, rfl, rfl, rfl, fun rest evs0 => by simp [runItems, h]⟩
  · intro h
    have h1 := (onNext_errored h).1
    exact ⟨h1, by rw [h1]; rfl⟩

theorem runItems_terminal_state (env : Env) :
    ∀ (items : List Item) (w : World) (s : DState) (li : Option Item) (evs : List Ev),
      (runItems env w s li evs items).term ≠ .raised →
      (runItems env w s li evs items).s = reset_state := by
  intro items
  induction items with
  | nil => intro w s li evs _; rfl
  | cons it rest ih =>
      intro w s li evs hterm
      simp only [runItems] at hterm ⊢
      rcases hstep : onNext env w s li it with ⟨w', s', li', e⟩ | ⟨w', s', li', e⟩ | ⟨w', s', li', e⟩ <;>
        rw [hstep] at hterm <;> dsimp only at hterm ⊢
      · exact ih w' s' li' (evs ++ e) hterm
      · exact (onNext_errored hstep).1
      · simp at hterm

/-- C9 amended: after upstream completion, upstream error or disposal the
rotator state is fully reset (path empty, no open handle, size zero), and
any session that ends in a terminal event leaves the rotator reset.  The
analyser reset run at session boundaries zeroes only the cached video
width/height; the cached audio sample-rate/channel-count are left untouched
and persist across sessions, and the rotator itself performs no reset when
a new subscription begins. -/
theorem terminal_reset_amended :
    ∀ (s : DState) (a : AnalyserState) (env : Env) (items : List Item),
      (on_completed_h s).1 = reset_state ∧
      (on_error_h s).1 = reset_state ∧
      (dispose_h s).1 = reset_state ∧
      reset_state.file = none ∧ reset_state.path = "" ∧ reset_state.filesize = 0 ∧
      ((run env items).term ≠ .raised → (run env items).s = reset_state) ∧
      (analyserReset a).video_width = JVal.n 0 ∧
      (analyserReset a).video_height = JVal.n 0 ∧
      (analyserReset a).audio_sample_rate = a.audio_sample_rate ∧
      (analyserReset a).audio_channels = a.audio_channels :=
  fun s a env items =>
    ⟨rfl, rfl, rfl, rfl, rfl, rfl, runItems_terminal_state env items _ _ _ _, rfl, rfl, rfl, rfl⟩

/-- C4: an `InitSection` whose payload is byte-identical to the retained
one is dropped silently: nothing is written, nothing is forwarded, no
`file_opened`/`file_closed` fires, the world, state and retained reference
are unchanged, and the session continues with the next item. -/
theorem redundant_init_dropped :
    ∀ (env : Env) (w : World) (s : DState) (prev item : Item) (rest : List Item) (evs0 : List Ev),
      item.isInit = true → item.payload = prev.payload →
      onNext env w s (some prev) item = .ok w s (some prev) [] ∧
      runItems env w s (some prev) evs0 (item :: rest) = runItems env w s (some prev) evs0 rest := by
  intro env w s prev item rest evs0 hinit hpay
  have h1 : onNext env w s (some prev) item = .ok w s (some prev) [] := by
    unfold onNext
    rw [hinit]
    simp [is_redundant, hpay]
  exact ⟨h1, by simp [runItems, h1]⟩

/-- C7: on every exit path of `ffprobe`, a spawned process is reaped and
not left alive; on a timeout or failure inside the `try` block (raise
during `communicate`, or unparsable output) the process is forcibly killed
and waited on before the error propagates. -/
theorem ffprobe_no_process_leak :
    ∀ (env : ProbeEnv),
      ((ffprobeRun env).2.spawned = true →
        (ffprobeRun env).2.reaped = true ∧ (ffprobeRun env).2.alive = false) ∧
      (env.spawnOk = true → (env.comm = .raised ∨ env.comm = .badJson) →
        (ffprobeRun env).2.killed = true ∧ (ffprobeRun env).2.reaped = true ∧
        (ffprobeRun env).1 = .error ()) := by
  intro env
  obtain ⟨sp, comm⟩ := env
  cases sp <;> cases comm <;>
    simp [ffprobeRun, pspawn, pkill, pwait, pcommDone]

theorem writesTo_append (f : Nat) (e1 e2 : List Ev) :
    writesTo f (e1 ++ e2) = writesTo f e1 ++ writesTo f e2 := by
  simp [writesTo, List.filterMap_append]

theorem concatPayloads_nil : concatPayloads [] = [] := rfl

theorem concatPayloads_cons (it : Item) (l : List Item) :
    concatPayloads (it :: l) = it.payload ++ concatPayloads l := rfl

theorem concatPayloads_append (l1 l2 : List Item) :
    concatPayloads (l1 ++ l2) = concatPayloads l1 ++ concatPayloads l2 := by
  induction l1 with
  | nil => simp [concatPayloads_nil]
  | cons x xs ih =>
      rw [List.cons_append, concatPayloads_cons, concatPayloads_cons, ih, List.append_assoc]

theorem offsetsOkFrom_snoc :
    ∀ (its : List Item) (b : Nat) (it : Item),
      offsetsOkFrom b its = true → it.offset = b + (concatPayloads its).length →
      offsetsOkFrom b (its ++ [it]) = true := by
  intro its
  induction its with
  | nil =>
      intro b it _ hoff
      simp [offsetsOkFrom, hoff, concatPayloads_nil]
  | cons x xs ih =>
      intro b it hok hoff
      simp only [offsetsOkFrom, Bool.and_eq_true, beq_iff_eq] at hok ⊢
      refine ⟨hok.1, ih _ it hok.2 ?_⟩
      rw [hoff, concatPayloads_cons, List.length_append]
      omega

theorem noWrites_of_no_next (e : List Ev) (h : ∀ ev ∈ e, isNextEv ev = false) :
    noWrites e := by
  intro f
  induction e with
  | nil => rfl
  | cons ev rest ih =>
      have hev := h ev (by simp)
      have hrest : ∀ ev ∈ rest, isNextEv ev = false := fun x hx => h x (by simp [hx])
      cases ev <;> simp [writesTo, isNextEv] at hev ⊢ <;>
        simpa [writesTo] using ih hrest

theorem noWrites_append {e1 e2 : List Ev} (h1 : noWrites e1) (h2 : noWrites e2) :
    noWrites (e1 ++ e2) := by
  intro f
  rw [writesTo_append, h1 f, h2 f, List.append_nil]

theorem noWrites_close (s : DState) : noWrites (close_file s).2 := by
  rcases close_snd_cases s with h | h <;> rw [h] <;>
    exact noWrites_of_no_next _ (by intro ev hev; simp at hev <;> simp [hev, isNextEv])

theorem noWrites_warns (ws : List String) : noWrites (ws.map Ev.warn) := by
  apply noWrites_of_no_next
  intro ev hev
  simp only [List.mem_map] at hev
  obtain ⟨m, -, rfl⟩ := hev
  rfl

theorem FileInv_noWrites {w : World} {evs e : List Ev}
    (hF : FileInv w evs) (hn : noWrites e) : FileInv w (evs ++ e) := by
  obtain ⟨h1, h2⟩ := hF
  constructor
  · intro f hf
    rw [writesTo_append, hn f, List.append_nil]
    exact h1 f hf
  · intro f hf
    rw [writesTo_append, hn f, List.append_nil]
    exact h2 f hf

theorem SizeInv_reset (w : World) : SizeInv w reset_state := by
  constructor
  · intro hd h
    cases h
  · intro _
    rfl

theorem Inv_reset {w : World} {s : DState} {evs e : List Ev}
    (hI : Inv w s evs) (hn : noWrites e) : Inv w reset_state (evs ++ e) :=
  ⟨FileInv_noWrites hI.1 hn, SizeInv_reset w⟩


theorem getD_append_left {l l2 : List (List Nat)} {f : Nat} (h : f < l.length) :
    (l ++ l2).getD f [] = l.getD f [] := by
  simp [List.getD_eq_getElem?_getD, List.getElem?_append_left h]

theorem getD_concat_length (l : List (List Nat)) (x : List Nat) :
    (l ++ [x]).getD l.length [] = x := by
  simp [List.getD_eq_getElem?_getD, List.getElem?_concat_length]

theorem getD_set_self {l : List (List Nat)} {x : List Nat} {i : Nat} (h : i < l.length) :
    (l.set i x).getD i [] = x := by
  simp [List.getD_eq_getElem?_getD, List.getElem?_set_self h]

theorem getD_set_ne {l : List (List Nat)} {x : List Nat} {i f : Nat} (h : i ≠ f) :
    (l.set i x).getD f [] = l.getD f [] := by
  simp [List.getD_eq_getElem?_getD, List.getElem?_set_ne h]

theorem writesTo_next_self (f : Nat) (it : Item) :
    writesTo f [Ev.next it f] = [it] := by
  simp [writesTo]

theorem writesTo_next_ne {f g : Nat} (h : g ≠ f) (it : Item) :
    writesTo f [Ev.next it g] = [] := by
  simp [writesTo, h]

theorem Inv_open {env : Env} {w : World} {evs : List Ev}
    (hI : Inv w reset_state evs) :
    Inv (open_file env w reset_state).1 (open_file env w reset_state).2.1
      (evs ++ [(open_file env w reset_state).2.2]) := by
  obtain ⟨⟨h1, h2⟩, -⟩ := hI
  have hnw : noWrites [(open_file env w reset_state).2.2] :=
    noWrites_of_no_next _ (by intro ev hev; simp at hev; subst hev; rfl)
  refine ⟨⟨?_, ?_⟩, ⟨?_, ?_⟩⟩
  · intro f hf
    rw [writesTo_append, hnw f, List.append_nil]
    simp only [open_file, List.length_append, List.length_cons, List.length_nil] at hf
    by_cases hlt : f < w.files.length
    · show (w.files ++ [[]]).getD f [] = _ ∧ _
      rw [getD_append_left hlt]
      exact h1 f hlt
    · have hfe : f = w.files.length := by omega
      subst hfe
      show (w.files ++ [[]]).getD w.files.length [] = _ ∧ _
      rw [getD_concat_length, h2 _ (Nat.le_refl _)]
      exact ⟨rfl, rfl⟩
  · intro f hf
    rw [writesTo_append, hnw f, List.append_nil]
    simp only [open_file, List.length_append, List.length_cons, List.length_nil] at hf
    exact h2 f (by omega)
  · intro hd hhd
    simp only [open_file] at hhd ⊢
    cases hhd
    refine ⟨rfl, by simp, ?_⟩
    show reset_state.filesize = ((w.files ++ [[]]).getD w.files.length []).length
    rw [getD_concat_length]
    rfl
  · intro hnone
    simp only [open_file] at hnone
    cases hnone

theorem write_data_ok {env : Env} {w : World} {s : DState} {it : Item}
    {w' : World} {off size : Nat}
    (h : write_data env w s it = .ok (w', off, size)) :
    ∃ hd, s.file = some hd ∧ hd.closed = false ∧
      off = (w.files.getD hd.idx []).length ∧ size = it.payload.length ∧
      w' = { w with files := w.files.set hd.idx ((w.files.getD hd.idx []) ++ it.payload),
                    writeCount := w.writeCount + 1 } := by
  unfold write_data at h
  cases hf : s.file with
  | none => rw [hf] at h; cases h
  | some hd =>
      rw [hf] at h
      dsimp only at h
      by_cases hc : hd.closed = true
      · rw [hc] at h
        simp only [eq_self_iff_true, if_true] at h
        cases h
      · rw [Bool.not_eq_true] at hc
        rw [hc] at h
        simp only [show (false = true) = False by simp, if_false] at h
        by_cases hwk : env.writeOk w.writeCount = true
        · rw [hwk] at h
          simp only [eq_self_iff_true, if_true] at h
          cases h
          exact ⟨hd, rfl, hc, rfl, rfl, rfl⟩
        · rw [Bool.not_eq_true] at hwk
          rw [hwk] at h
          simp only [show (false = true) = False by simp, if_false] at h
          cases h

theorem Inv_write {env : Env} {w : World} {s : DState} {evs : List Ev} {it : Item}
    {w' : World} {off size : Nat}
    (hI : Inv w s evs) (h : write_data env w s it = .ok (w', off, size)) :
    Inv w' { s with filesize := s.filesize + size }
      (evs ++ [Ev.next { it with offset := off } (curIdx s)]) := by
  obtain ⟨⟨h1, h2⟩, hS⟩ := hI
  obtain ⟨hd, hf, hc, hoff, hsize, hw⟩ := write_data_ok h
  obtain ⟨-, hidx, hfs⟩ := hS.1 hd hf
  have hcur : curIdx s = hd.idx := by simp [curIdx, hf]
  have hcontent : w.files.getD hd.idx [] = concatPayloads (writesTo hd.idx evs) :=
    (h1 hd.idx hidx).1
  have hoffs : offsetsOkFrom 0 (writesTo hd.idx evs) = true := (h1 hd.idx hidx).2
  subst hw
  refine ⟨⟨?_, ?_⟩, ⟨?_, ?_⟩⟩
  · intro f hf2
    simp only [List.length_set] at hf2
    rw [writesTo_append, hcur]
    by_cases hfe : f = hd.idx
    · subst hfe
      rw [writesTo_next_self]
      constructor
      · show (w.files.set hd.idx (w.files.getD hd.idx [] ++ it.payload)).getD hd.idx [] = _
        rw [getD_set_self hf2, concatPayloads_append, hcontent, concatPayloads_cons,
          concatPayloads_nil, List.append_nil]
      · apply offsetsOkFrom_snoc _ _ _ hoffs
        show off = 0 + (concatPayloads (writesTo hd.idx evs)).length
        rw [hoff, hcontent, Nat.zero_add]
    · rw [writesTo_next_ne (fun hh => hfe hh.symm), List.append_nil]
      show (w.files.set hd.idx _).getD f [] = _ ∧ _
      rw [getD_set_ne (fun hh => hfe hh.symm)]
      exact h1 f hf2
  · intro f hf2
    simp only [List.length_set] at hf2
    rw [writesTo_append, hcur, writesTo_next_ne (by omega), List.append_nil]
    exact h2 f hf2
  · intro hd2 hhd2
    simp only at hhd2
    rw [hf] at hhd2
    cases hhd2
    refine ⟨hc, by simpa using hidx, ?_⟩
    show s.filesize + size = ((w.files.set hd.idx (w.files.getD hd.idx [] ++ it.payload)).getD hd.idx []).length
    rw [getD_set_self hidx, List.length_append, hfs, hsize]
  · intro hnone
    simp only at hnone
    rw [hf] at hnone
    cases hnone


theorem Inv_congr {w : World} {s : DState} {evs evs' : List Ev}
    (h : evs = evs') (hI : Inv w s evs) : Inv w s evs' := h ▸ hI

theorem Inv_noWrites {w : World} {s : DState} {E e : List Ev}
    (hI : Inv w s E) (hn : noWrites e) : Inv w s (E ++ e) :=
  ⟨FileInv_noWrites hI.1 hn, hI.2⟩

theorem noWrites_error : noWrites [Ev.error] :=
  noWrites_of_no_next _ (by intro ev hev; simp at hev; subst hev; rfl)

theorem noWrites_completed : noWrites [Ev.completed] :=
  noWrites_of_no_next _ (by intro ev hev; simp at hev; subst hev; rfl)

theorem Inv_writeForward {env : Env} {w : World} {s : DState} {li : Option Item}
    {it : Item} {evs E : List Ev} (hI : Inv w s (E ++ evs)) :
    Inv (writeForward env w s li it evs).pw (writeForward env w s li it evs).ps
      (E ++ (writeForward env w s li it evs).pevs) := by
  unfold writeForward
  rcases hwd : write_data env w s it with err | ⟨w2, off, size⟩ <;>
    dsimp only [StepRes.pw, StepRes.ps, StepRes.pevs]
  · exact Inv_congr (by simp [List.append_assoc])
      (Inv_reset hI (noWrites_append (noWrites_close s) noWrites_error))
  · exact Inv_congr (by simp [List.append_assoc]) (Inv_write hI hwd)

theorem Inv_afterSplit {env : Env} {w : World} {s : DState} {li : Option Item}
    {item : Item} {split0 : Bool} {evs0 E : List Ev}
    (hn0 : noWrites evs0) (hI : Inv w s E) :
    Inv (afterSplit env w s li item split0 evs0).pw
      (afterSplit env w s li item split0 evs0).ps
      (E ++ (afterSplit env w s li item split0 evs0).pevs) := by
  unfold afterSplit
  dsimp only
  by_cases hsf : (if split0 = true then split0 else need_split_file item) = true
  · rw [hsf]
    simp only [eq_self_iff_true, if_true, Bool.true_and]
    have h1 : Inv w reset_state ((E ++ evs0) ++ (close_file s).2) :=
      Inv_congr (by simp [List.append_assoc])
        (Inv_reset hI (noWrites_append hn0 (noWrites_close s)))
    have hrot : Inv (rotated env w s evs0).1 (rotated env w s evs0).2.1
        (E ++ (rotated env w s evs0).2.2) :=
      Inv_congr (show ((E ++ evs0) ++ (close_file s).2) ++ [(open_file env w reset_state).2.2]
          = E ++ (rotated env w s evs0).2.2 by simp [rotated, List.append_assoc])
        (Inv_open h1)
    cases hii : item.isInit
    · simp only [Bool.not_false, eq_self_iff_true, if_true]
      cases li with
      | none =>
          dsimp only [StepRes.pw, StepRes.ps, StepRes.pevs]
          have hre := Inv_reset hrot
            (noWrites_append (noWrites_close (rotated env w s evs0).2.1) noWrites_error)
          exact Inv_congr (by simp [List.append_assoc]) hre
      | some lastInit =>
          dsimp only
          rcases hwd : write_data env (rotated env w s evs0).1
              (rotated env w s evs0).2.1 lastInit with err | ⟨w2, off, size⟩ <;>
            dsimp only [StepRes.pw, StepRes.ps, StepRes.pevs]
          · have hre := Inv_reset hrot
              (noWrites_append (noWrites_close (rotated env w s evs0).2.1) noWrites_error)
            exact Inv_congr (by simp [List.append_assoc]) hre
          · have hw1 := Inv_write hrot hwd
            exact Inv_writeForward (Inv_congr (by simp [List.append_assoc]) hw1)
    · simp only [Bool.not_true]
      simp only [show (false = true) = False by simp, if_false]
      exact Inv_writeForward hrot
  · rw [Bool.not_eq_true] at hsf
    rw [hsf]
    simp only [show (false = true) = False by simp, if_false, Bool.false_and]
    exact Inv_writeForward (Inv_noWrites hI hn0)

theorem Inv_onNext {env : Env} {w : World} {s : DState} {li : Option Item}
    {item : Item} {E : List Ev} (hI : Inv w s E) :
    Inv (onNext env w s li item).pw (onNext env w s li item).ps
      (E ++ (onNext env w s li item).pevs) := by
  unfold onNext
  cases hii : item.isInit
  · simp only [show (false = true) = False by simp, if_false]
    exact Inv_afterSplit (fun f => rfl) hI
  · simp only [eq_self_iff_true, if_true]
    by_cases hr : is_redundant li item = true
    · rw [hr]
      simp only [eq_self_iff_true, if_true]
      dsimp only [StepRes.pw, StepRes.ps, StepRes.pevs]
      exact Inv_congr (by simp) hI
    · rw [Bool.not_eq_true] at hr
      rw [hr]
      simp only [show (false = true) = False by simp, if_false]
      rcases hms : must_split_file env li item with err | ⟨split0, warns⟩ <;> dsimp only
      · dsimp only [StepRes.pw, StepRes.ps, StepRes.pevs]
        exact Inv_congr (by simp) hI
      · exact Inv_afterSplit (noWrites_warns warns) hI

theorem Inv_runItems (env : Env) :
    ∀ (items : List Item) (w : World) (s : DState) (li : Option Item) (evs : List Ev),
      Inv w s evs →
      Inv (runItems env w s li evs items).w (runItems env w s li evs items).s
        (runItems env w s li evs items).evs := by
  intro items
  induction items with
  | nil =>
      intro w s li evs hI
      simp only [runItems, on_completed_h]
      exact Inv_reset hI (noWrites_append (noWrites_close s) noWrites_completed)
  | cons it rest ih =>
      intro w s li evs hI
      simp only [runItems]
      have hstep := @Inv_onNext env w s li it evs hI
      rcases hs : onNext env w s li it with ⟨w', s', li', e⟩ | ⟨w', s', li', e⟩ | ⟨w', s', li', e⟩ <;>
        rw [hs] at hstep <;> dsimp only [StepRes.pw, StepRes.ps, StepRes.pevs] at hstep <;>
        dsimp only
      · exact ih w' s' li' (evs ++ e) hstep
      · exact hstep
      · exact hstep

/-- C1: in any session, every created file holds exactly the concatenation
of the payloads forwarded into it, the offset recorded on each forwarded
item equals the number of bytes written to its file before that item, and
after each step the cumulative size accessor equals the bytes written to
the currently open file since its rotation (zero when no file is open). -/
theorem rotator_offsets_and_cumulative_size (env : Env) (items : List Item) :
    (∀ f, f < (run env items).w.files.length →
      (run env items).w.files.getD f [] = concatPayloads (writesTo f (run env items).evs) ∧
      offsetsOkFrom 0 (writesTo f (run env items).evs) = true) ∧
    (∀ hd, (run env items).s.file = some hd →
      (run env items).s.filesize = ((run env items).w.files.getD hd.idx []).length) ∧
    ((run env items).s.file = none → (run env items).s.filesize = 0) := by
  have hI0 : Inv ⟨[], 0⟩ reset_state [] := by
    refine ⟨⟨?_, ?_⟩, SizeInv_reset _⟩
    · intro f hf
      simp at hf
    · intro f _
      rfl
  have h := Inv_runItems env items ⟨[], 0⟩ reset_state none [] hI0
  exact ⟨h.1.1, fun hd hhd => (h.2.1 hd hhd).2.2, h.2.2⟩

/-- C3: feeding `[InitA, Seg1, Seg2(forced split), Seg3]` with one init
section opens exactly two files; the second holds `InitA ++ Seg2 ++ Seg3`,
with the retained init section re-written first (its copy forwarded at
offset 0) and the triggering segment after it. -/
theorem forced_split_scenario (env : Env) (pA p1 p2 p3 : List Nat) (pr : Profile)
    (hpr : env.rawProbe pA = .ok pr) (hwk : ∀ n, env.writeOk n = true) :
    (run env [⟨true, pA, false, 0⟩, ⟨false, p1, false, 0⟩,
              ⟨false, p2, true, 0⟩, ⟨false, p3, false, 0⟩]).w.files
        = [pA ++ p1, pA ++ p2 ++ p3] ∧
    (run env [⟨true, pA, false, 0⟩, ⟨false, p1, false, 0⟩,
              ⟨false, p2, true, 0⟩, ⟨false, p3, false, 0⟩]).evs.countP isOpenedEv = 2 ∧
    writesTo 1 (run env [⟨true, pA, false, 0⟩, ⟨false, p1, false, 0⟩,
              ⟨false, p2, true, 0⟩, ⟨false, p3, false, 0⟩]).evs
        = [⟨true, pA, false, 0⟩, ⟨false, p2, true, pA.length⟩,
           ⟨false, p3, false, pA.length + p2.length⟩] ∧
    (run env [⟨true, pA, false, 0⟩, ⟨false, p1, false, 0⟩,
              ⟨false, p2, true, 0⟩, ⟨false, p3, false, 0⟩]).term = .completed := by
  have hms : must_split_file env none ⟨true, pA, false, 0⟩ = .ok (true, []) := by
    simp [must_split_file, ffprobeE, hpr, Bind.bind, Except.bind, Pure.pure, Except.pure]
  refine ⟨?_, ?_, ?_, ?_⟩ <;>
    simp [run, runItems, onNext, hms, afterSplit, rotated, open_file, close_file,
      write_data, writeForward, need_split_file, is_redundant, curIdx, reset_state,
      on_completed_h, hwk, writesTo, isOpenedEv, List.countP_cons, StepRes.pw]

/-- C8 as stated is false on the code: a probe failure while deciding
rotation for a non-duplicate `InitSection` escapes the stage while the
output file from the previous items is still open, and no `file_closed`
event ever fires. -/
theorem probe_failure_leaves_file_open_cex :
    (run envProbeFail [itemInitA, itemSeg1, itemInitB]).term = .raised ∧
    (run envProbeFail [itemInitA, itemSeg1, itemInitB]).s.file = some ⟨0, false⟩ ∧
    (run envProbeFail [itemInitA, itemSeg1, itemInitB]).evs.countP isClosedEv = 0 :=
  ⟨rfl, rfl, rfl⟩

/-- C9 as stated is false on the code: `Analyser._reset` does not touch
the cached audio sample-rate/channel-count, so after a profile update they
survive the reset instead of returning to their initial (absent) values. -/
theorem analyser_audio_not_reset_cex :
    (analyserReset (onProfileUpdated audioProfileEg initAnalyserState)).audio_sample_rate
        = some (JVal.s "44100") ∧
    (analyserReset (onProfileUpdated audioProfileEg initAnalyserState)).audio_channels
        = some (JVal.n 2) ∧
    initAnalyserState.audio_sample_rate = none ∧
    initAnalyserState.audio_channels = none :=
  ⟨rfl, rfl, rfl, rfl⟩

/-- Witness for C1 on a concrete two-item session. -/
theorem rotator_offsets_and_cumulative_size_witness :
    (run envAllOk [itemInitA, itemSeg1]).w.files.getD 0 []
        = concatPayloads (writesTo 0 (run envAllOk [itemInitA, itemSeg1]).evs) ∧
    offsetsOkFrom 0 (writesTo 0 (run envAllOk [itemInitA, itemSeg1]).evs) = true ∧
    (run envAllOk [itemInitA, itemSeg1]).s.filesize = 0 := by
  have h := rotator_offsets_and_cumulative_size envAllOk [itemInitA, itemSeg1]
  exact ⟨(h.1 0 (by decide)).1, (h.1 0 (by decide)).2, h.2.2 rfl⟩

/-- Witness for C2 on a concrete probe decision. -/
theorem must_split_file_always_true_witness :
    must_split_file envAllOk none itemInitA = .ok (true, []) ∧ (true : Bool) = true :=
  ⟨rfl, must_split_file_always_true envAllOk none itemInitA true [] rfl⟩

/-- Witness for C3 on concrete payloads. -/
theorem forced_split_scenario_witness :
    (run envAllOk [⟨true, [1, 2], false, 0⟩, ⟨false, [3], false, 0⟩,
        ⟨false, [4, 5], true, 0⟩, ⟨false, [6], false, 0⟩]).w.files
      = [[1, 2] ++ [3], [1, 2] ++ [4, 5] ++ [6]] ∧
    (run envAllOk [⟨true, [1, 2], false, 0⟩, ⟨false, [3], false, 0⟩,
        ⟨false, [4, 5], true, 0⟩, ⟨false, [6], false, 0⟩]).evs.countP isOpenedEv = 2 ∧
    writesTo 1 (run envAllOk [⟨true, [1, 2], false, 0⟩, ⟨false, [3], false, 0⟩,
        ⟨false, [4, 5], true, 0⟩, ⟨false, [6], false, 0⟩]).evs
      = [⟨true, [1, 2], false, 0⟩, ⟨false, [4, 5], true, ([1, 2] : List Nat).length⟩,
         ⟨false, [6], false, ([1, 2] : List Nat).length + ([4, 5] : List Nat).length⟩] ∧
    (run envAllOk [⟨true, [1, 2], false, 0⟩, ⟨false, [3], false, 0⟩,
        ⟨false, [4, 5], true, 0⟩, ⟨false, [6], false, 0⟩]).term = .completed :=
  forced_split_scenario envAllOk [1, 2] [3] [4, 5] [6] emptyProfile rfl (fun _ => rfl)

/-- Witness for C4 on a concrete duplicate init section. -/
theorem redundant_init_dropped_witness :
    onNext envAllOk ⟨[], 0⟩ reset_state (some itemInitA) itemInitA
      = .ok ⟨[], 0⟩ reset_state (some itemInitA) [] ∧
    runItems envAllOk ⟨[], 0⟩ reset_state (some itemInitA) [] [itemInitA]
      = runItems envAllOk ⟨[], 0⟩ reset_state (some itemInitA) [] [] :=
  redundant_init_dropped envAllOk ⟨[], 0⟩ reset_state itemInitA itemInitA [] [] rfl rfl

/-- Witness for C5 on a concrete failing write. -/
theorem write_failure_aborts_session_witness :
    (reset_state = reset_state) ∧
    ([Ev.opened "rec.m4s" 0, Ev.closed "rec.m4s", Ev.error].getLast? = some Ev.error) ∧
    ([Ev.opened "rec.m4s" 0, Ev.closed "rec.m4s", Ev.error].any isClosedEv = true) ∧
    runItems envNoWrite ⟨[], 0⟩ reset_state none [] [itemInitA]
      = ⟨⟨[[]], 0⟩, reset_state, some itemInitA,
         [] ++ [Ev.opened "rec.m4s" 0, Ev.closed "rec.m4s", Ev.error], .errored⟩ := by
  have h := write_failure_aborts_session envNoWrite ⟨[], 0⟩ reset_state none itemInitA
    ⟨[[]], 0⟩ reset_state (some itemInitA)
    [Ev.opened "rec.m4s" 0, Ev.closed "rec.m4s", Ev.error] rfl
  exact ⟨h.1, h.2.1, h.2.2.1 (Or.inr rfl), h.2.2.2 [] []⟩

/-- Witness for C6 on a profile with no audio stream. -/
theorem normalize_streams_first_video_audio_witness :
    (normalize_streams videoOnlyProfile).streams.find? (codecTypeIs "audio")
        = some audioPlaceholder ∧
    dget audioPlaceholder "codec_name" = some (JVal.s "none") := by
  obtain ⟨a, ha, hn⟩ := (normalize_streams_first_video_audio videoOnlyProfile).2.2.2 rfl
  have he : some a = some audioPlaceholder :=
    ha.symm.trans (show (normalize_streams videoOnlyProfile).streams.find? (codecTypeIs "audio")
      = some audioPlaceholder from rfl)
  cases he
  exact ⟨ha, hn⟩

/-- Witness for C7 on a concrete raising probe call. -/
theorem ffprobe_no_process_leak_witness :
    (ffprobeRun ⟨true, .raised⟩).2.killed = true ∧
    (ffprobeRun ⟨true, .raised⟩).2.reaped = true ∧
    (ffprobeRun ⟨true, .raised⟩).1 = .error () :=
  (ffprobe_no_process_leak ⟨true, .raised⟩).2 rfl (Or.inl rfl)

/-- Witness for C8 (amended) on a concrete raising probe mid-session. -/
theorem probe_failure_escapes_unhandled_witness :
    runItems envProbeFail ⟨[[1, 2, 3]], 2⟩ ⟨"rec.m4s", some ⟨0, false⟩, 3⟩
        (some itemInitA) [] [itemInitB]
      = ⟨⟨[[1, 2, 3]], 2⟩, ⟨"rec.m4s", some ⟨0, false⟩, 3⟩, some itemInitA, [], .raised⟩ ∧
    (⟨"rec.m4s", some ⟨0, false⟩, 3⟩ : DState).file = some ⟨0, false⟩ := by
  have h := (probe_failure_escapes_unhandled envProbeFail ⟨[[1, 2, 3]], 2⟩
      ⟨"rec.m4s", some ⟨0, false⟩, 3⟩ (some itemInitA) itemInitB
      ⟨[[1, 2, 3]], 2⟩ ⟨"rec.m4s", some ⟨0, false⟩, 3⟩ (some itemInitA) []).1 rfl
  exact ⟨h.2.2.2.2 [] [], rfl⟩

/-- Witness for C9 (amended) on concrete states and a concrete session. -/
theorem terminal_reset_amended_witness :
    (on_completed_h sStateEg).1 = reset_state ∧
    (run envAllOk [itemInitA]).s = reset_state ∧
    (analyserReset aStateEg).audio_sample_rate = aStateEg.audio_sample_rate := by
  have h := terminal_reset_amended sStateEg aStateEg envAllOk [itemInitA]
  exact ⟨h.1, h.2.2.2.2.2.2.1 (by decide), h.2.2.2.2.2.2.2.2.2.1⟩

/-- Witness for C10 on a concrete audio-only profile. -/
theorem normalize_streams_only_video_audio_witness :
    codecTypeIs "video" videoPlaceholder = true ∨
    codecTypeIs "audio" videoPlaceholder = true :=
  normalize_streams_only_video_audio audioProfileEg videoPlaceholder
    (show videoPlaceholder ∈ (normalize_streams audioProfileEg).streams by
      rw [show (normalize_streams audioProfileEg).streams
          = videoPlaceholder :: [[("codec_type", JVal.s "audio"), ("codec_name", JVal.s "aac"),
              ("sample_rate", JVal.s "44100"), ("channels", JVal.n 2)]] from rfl]
      exact List.mem_cons_self _ _)

end Blrec
